import Mathlib

/-!
A shallow embedding of the mDNS responder (package mdns).

The development follows the three files of the package:

* mdns_type.go  : Service, Server, opKind, operation
* mdns_utils.go : buildServiceRecord, buildARecord, buildAAAARecord
* mdns.go       : handleQuery, sendResponse, run, sendGoodbye, Shutdown

Modelling conventions.

* A Go string is a Lean String; the Go builtin len is the UTF-8 byte size.
* Fixed-width unsigned integers are natural numbers, reduced modulo 2^w where
  the Go type truncates.
* A Go pointer to a Service is a pair of an address (its identity) and the
  pointee read through it; nil is the absent option.  The map keyed by such
  pointers is keyed by the address alone.
* A Go map is an association list with pairwise distinct keys (AList); the
  order of its entries stands for the order in which a range loop visits them.
* The sync.Mutex is a boolean (true: held).  Lock on a held mutex never
  returns in a sequential run, which is the outcome blocked.
* The UDP socket is the trace of the datagrams handed to WriteToUDP.
* The parts of net/netip and golang.org/x/net/dns/dnsmessage that the package
  calls are transcribed from those libraries.
-/

namespace Mdns

/-! ## net/netip -/

/-- The field z of netip.Addr: z0 (zero Addr), z4 (IPv4), z6noz (IPv6 without
zone) or an IPv6 zone name. -/
inductive Zone where
  | z0
  | z4
  | z6noz
  | zone (name : String)
  deriving DecidableEq, Repr

/-- The struct netip.Addr: a 128-bit value as two 64-bit halves, and the field z. -/
structure Addr where
  hi : Nat
  lo : Nat
  z : Zone
  deriving DecidableEq, Repr

/-- Is4 reports whether ip is an IPv4 address: ip.z == z4. -/
def Addr.Is4 (ip : Addr) : Bool := decide (ip.z = Zone.z4)

/-- Is6 reports whether ip is an IPv6 address: ip.z != z0 && ip.z != z4. -/
def Addr.Is6 (ip : Addr) : Bool := decide (ip.z ≠ Zone.z0) && decide (ip.z ≠ Zone.z4)

/-- Is4In6: ip.Is6() && ip.addr.hi == 0 && ip.addr.lo>>32 == 0xffff. -/
def Addr.Is4In6 (ip : Addr) : Bool :=
  ip.Is6 && decide (ip.hi = 0) && decide (ip.lo / 2 ^ 32 = 0xffff)

/-- Big-endian bytes of a uint32 (byteorder.BEPutUint32). -/
def bePutUint32 (v : Nat) : List Nat :=
  [v / 2 ^ 24 % 256, v / 2 ^ 16 % 256, v / 2 ^ 8 % 256, v % 256]

/-- Big-endian bytes of a uint64 (byteorder.BEPutUint64). -/
def bePutUint64 (v : Nat) : List Nat :=
  [v / 2 ^ 56 % 256, v / 2 ^ 48 % 256, v / 2 ^ 40 % 256, v / 2 ^ 32 % 256,
   v / 2 ^ 24 % 256, v / 2 ^ 16 % 256, v / 2 ^ 8 % 256, v % 256]

/-- As4 returns the 4 bytes of an IPv4 or IPv4-mapped IPv6 address and panics
(none) on the zero Addr and on any other IPv6 address. -/
def Addr.As4 (ip : Addr) : Option (List Nat) :=
  if ip.z = Zone.z4 ∨ ip.Is4In6 = true then some (bePutUint32 (ip.lo % 2 ^ 32))
  else none

/-- As16 returns the 16 bytes of the 128-bit value, high half first. -/
def Addr.As16 (ip : Addr) : List Nat :=
  bePutUint64 ip.hi ++ bePutUint64 ip.lo

/-- The constructor netip.AddrFrom4. -/
def AddrFrom4 (a b c d : Nat) : Addr :=
  { hi := 0
    lo := 0xffff00000000 + (a % 256) * 2 ^ 24 + (b % 256) * 2 ^ 16 + (c % 256) * 2 ^ 8 + d % 256
    z := Zone.z4 }

/-- The constructor netip.AddrFrom16 followed by WithZone: the halves are the
big-endian values of the two groups of 8 bytes. -/
def AddrFrom16 (hi lo : Nat) (z : Zone) : Addr :=
  { hi := hi % 2 ^ 64, lo := lo % 2 ^ 64, z := z }

/-- The representation invariant of netip.Addr: 64-bit halves; an IPv4 address
is stored as the IPv4-mapped value; the zero Addr has a zero value. -/
def Addr.WF (ip : Addr) : Prop :=
  ip.hi < 2 ^ 64 ∧ ip.lo < 2 ^ 64 ∧
  (ip.z = Zone.z4 → ip.hi = 0 ∧ ip.lo / 2 ^ 32 = 0xffff) ∧
  (ip.z = Zone.z0 → ip.hi = 0 ∧ ip.lo = 0)

instance (ip : Addr) : Decidable ip.WF := by
  unfold Addr.WF
  infer_instance

/-- WithZone with the empty zone: an IPv6 address loses its zone, every other
address is returned as it is. -/
def Addr.withoutZone (ip : Addr) : Addr :=
  if ip.Is6 then { ip with z := Zone.z6noz } else ip

/-! ## golang.org/x/net/dns/dnsmessage -/

deriving instance DecidableEq for Except

/-- The errors of dnsmessage that the package can meet. -/
inductive DnsError where
  | errCalcLen
  | errNameTooLong
  | errNonCanonicalName
  | errSegTooLong
  | errZeroSegLen
  | errTooManyAnswers
  deriving DecidableEq, Repr

/-- The struct dnsmessage.Name: the first Length bytes of Data. -/
structure Name where
  Data : String
  deriving DecidableEq, Repr

/-- The capacity of Name.Data. -/
def nameLen : Nat := 255

/-- The longest name that Name.pack encodes. -/
def nonEncodedNameMax : Nat := 254

/-- NewName creates a Name from a string; its only failure is a string longer
than the 255 bytes of Name.Data. -/
def NewName (name : String) : Except DnsError Name :=
  if name.utf8ByteSize > nameLen then Except.error DnsError.errCalcLen
  else Except.ok { Data := name }

/-- Name.String: the first Length bytes of Data as a string. -/
def Name.String (n : Name) : String := n.Data

/-- The segment loop of Name.pack: seg is the byte length of the segment read so
far (i - begin); a dot closes a segment, which must be 1 to 63 bytes long. -/
def packSegments : List Char → Nat → Except DnsError Unit
  | [], _ => Except.ok ()
  | c :: cs, seg =>
    if c = '.' then
      if seg ≥ 64 then Except.error DnsError.errSegTooLong
      else if seg = 0 then Except.error DnsError.errZeroSegLen
      else packSegments cs 0
    else packSegments cs (seg + c.utf8Size)

/-- The error paths of Name.pack, in the order of the library; the bytes it
emits are not modelled. -/
def Name.pack (n : Name) : Except DnsError Unit :=
  if n.Data.utf8ByteSize > nonEncodedNameMax then Except.error DnsError.errNameTooLong
  else if n.Data.utf8ByteSize = 0 ∨ n.Data.data.getLast? ≠ some '.' then
    Except.error DnsError.errNonCanonicalName
  else if n.Data.data = ['.'] then Except.ok ()
  else packSegments n.Data.data 0

/-- The type dnsmessage.Type (uint16): A. -/
def TypeA : Nat := 1

/-- The type dnsmessage.Type (uint16): AAAA. -/
def TypeAAAA : Nat := 28

/-- The class dnsmessage.ClassINET. -/
def ClassINET : Nat := 1

/-- The bodies the package builds: AResource (4 bytes) and AAAAResource (16 bytes). -/
inductive ResourceBody where
  | AResource (A : List Nat)
  | AAAAResource (AAAA : List Nat)
  deriving DecidableEq, Repr

/-- The struct dnsmessage.ResourceHeader; the field Type is written Type_. -/
structure ResourceHeader where
  Name : Name
  Type_ : Nat
  Class : Nat
  TTL : Nat
  Length : Nat
  deriving DecidableEq, Repr

/-- The struct dnsmessage.Resource. -/
structure Resource where
  Header : ResourceHeader
  Body : ResourceBody
  deriving DecidableEq, Repr

/-- The struct dnsmessage.Question; the field Type is written Type_. -/
structure Question where
  Name : Name
  Type_ : Nat
  Class : Nat
  deriving DecidableEq, Repr

/-- The struct dnsmessage.Header (the fields the package reads or writes; the
others keep their zero value). -/
structure Header where
  ID : Nat
  Response : Bool
  Authoritative : Bool
  deriving DecidableEq, Repr

/-- The struct dnsmessage.Message; the package fills Header and Answers only,
the other three sections stay empty. -/
structure Message where
  Header : Header
  Answers : List Resource
  deriving DecidableEq, Repr

/-- Packing every resource of a section in turn: the first failing name stops
it (the bodies A and AAAA always pack). -/
def packResources : List Resource → Except DnsError Unit
  | [] => Except.ok ()
  | r :: rs =>
    match r.Header.Name.pack with
    | Except.error e => Except.error e
    | Except.ok _ => packResources rs

/-- The error paths of Message.Pack for a message that has answers only. -/
def Message.Pack (m : Message) : Except DnsError Unit :=
  if m.Answers.length > 65535 then Except.error DnsError.errTooManyAnswers
  else packResources m.Answers

/-! ## mdns_type.go -/

/-- The struct Service; IP is a pointer to a netip.Addr and may be nil. -/
structure Service where
  Hostname : String
  IP : Option Addr
  deriving DecidableEq, Repr

/-- A non-nil pointer to a Service: its address, which is its identity as a
map key, and the pointee read through it. -/
structure ServicePtr where
  addr : Nat
  val : Service
  deriving DecidableEq, Repr

/-- The type opKind. -/
inductive opKind where
  | registerOp
  | unregisterOp
  deriving DecidableEq, Repr

/-- The struct operation; service may be nil. -/
structure operation where
  op : opKind
  service : Option ServicePtr
  deriving DecidableEq, Repr

/-! ## mdns_utils.go -/

/-- The errors buildServiceRecord returns. -/
inductive BuildError where
  | nilService
  | invalidHostname (hostname : String) (err : DnsError)
  | unsupportedIPVersion (ip : Addr)
  deriving DecidableEq, Repr

/-- What a call of a record builder does: return a record, return an error, or
panic on a nil pointer. -/
inductive BuildResult where
  | ok (record : Resource)
  | error (err : BuildError)
  | panics
  deriving DecidableEq, Repr

/-- buildARecord: type A, class IN with bit 15 set, data = service.IP.As4(). -/
def buildARecord (service : ServicePtr) (host : Name) (ttl : Nat) : BuildResult :=
  match service.val.IP with
  | none => BuildResult.panics
  | some ip =>
    match ip.As4 with
    | none => BuildResult.panics
    | some a =>
      BuildResult.ok
        { Header := { Name := host, Type_ := TypeA, Class := ClassINET ||| (1 <<< 15),
                      TTL := ttl % 2 ^ 32, Length := 0 }
          Body := ResourceBody.AResource a }

/-- buildAAAARecord: type AAAA, class IN with bit 15 set, data = service.IP.As16(). -/
def buildAAAARecord (service : ServicePtr) (host : Name) (ttl : Nat) : BuildResult :=
  match service.val.IP with
  | none => BuildResult.panics
  | some ip =>
    BuildResult.ok
      { Header := { Name := host, Type_ := TypeAAAA, Class := ClassINET ||| (1 <<< 15),
                    TTL := ttl % 2 ^ 32, Length := 0 }
        Body := ResourceBody.AAAAResource ip.As16 }

/-- buildServiceRecord: nil check, NewName on the hostname, then the address
family decides between buildARecord and buildAAAARecord. -/
def buildServiceRecord (service : Option ServicePtr) (ttl : Nat) : BuildResult :=
  match service with
  | none => BuildResult.error BuildError.nilService
  | some p =>
    match NewName p.val.Hostname with
    | Except.error e => BuildResult.error (BuildError.invalidHostname p.val.Hostname e)
    | Except.ok host =>
      match p.val.IP with
      | none => BuildResult.panics
      | some ip =>
        if ip.Is4 then buildARecord p host ttl
        else if ip.Is6 then buildAAAARecord p host ttl
        else BuildResult.error (BuildError.unsupportedIPVersion ip)

/-! ## mdns.go -/

/-- The constant defaultTTL. -/
def defaultTTL : Nat := 120

/-- The struct net.UDPAddr. -/
structure UDPAddr where
  IP : List Nat
  Port : Nat
  deriving DecidableEq, Repr

/-- One call of WriteToUDP: the message whose packed bytes are written, and
the destination. -/
structure Datagram where
  msg : Message
  dst : UDPAddr
  deriving DecidableEq, Repr

/-- The struct Server.  services and records are the two maps, records being
keyed by the address of the Service pointer; mu is the mutex (true: held), conn is the trace of the writes to the socket (oldest first),
shutdown counts the values sent on the shutdown channel. -/
structure Server where
  services : AList (fun _ : String => ServicePtr)
  records : AList (fun _ : Nat => Resource)
  mu : Bool
  destAddr : UDPAddr
  conn : List Datagram
  shutdown : Nat

/-- What a call on the server does: return in a new state, block for ever on
the mutex, or panic. -/
inductive Outcome where
  | returns (s : Server)
  | blocked
  | panics

/-- NewServer: empty maps, free mutex, the multicast group 224.0.0.251:5353 as
destination. -/
def NewServer : Server :=
  { services := ∅, records := ∅, mu := false,
    destAddr := { IP := [224, 0, 0, 251], Port := 5353 }, conn := [], shutdown := 0 }

/-- The header sendResponse and sendGoodbye write: Response and Authoritative. -/
def replyHeader : Header := { ID := 0, Response := true, Authoritative := true }

/-- The body of the loop of handleQuery over the questions: the record to
append for q, if any. -/
def Server.answer (s : Server) (q : Question) : Option Resource :=
  if q.Type_ ≠ TypeA ∧ q.Type_ ≠ TypeAAAA then none
  else
    match s.services.lookup q.Name.String with
    | none => none
    | some service =>
      match s.records.lookup service.addr with
      | none => none
      | some record => if record.Header.Type_ = q.Type_ then some record else none

/-- The loop of handleQuery over the questions: the answers it collects. -/
def Server.collectAnswers (s : Server) (questions : List Question) : List Resource :=
  questions.foldl
    (fun answers q =>
      match s.answer q with
      | some record => answers ++ [record]
      | none => answers)
    []

/-- sendResponse: pack the message of the answers and, unless packing fails,
write it to the querier. -/
def Server.sendResponse (s : Server) (answers : List Resource) (dst : UDPAddr) : Server :=
  let msg : Message := { Header := replyHeader, Answers := answers }
  match msg.Pack with
  | Except.error _ => s
  | Except.ok _ => { s with conn := s.conn ++ [{ msg := msg, dst := dst }] }

/-- What the dnsmessage.Parser finds in a packet: the header, or an error, and
the questions, or an error. -/
structure Packet where
  header : Except DnsError Header
  questions : Except DnsError (List Question)

/-- handleQuery: drop unparsable packets, responses and packets without
question; collect the answers under the mutex; send them if there are any. -/
def Server.handleQuery (s : Server) (packet : Packet) (src : UDPAddr) : Outcome :=
  match packet.header with
  | Except.error _ => Outcome.returns s
  | Except.ok header =>
    if header.Response then Outcome.returns s
    else
      match packet.questions with
      | Except.error _ => Outcome.returns s
      | Except.ok questions =>
        if questions.length = 0 then Outcome.returns s
        else if s.mu then Outcome.blocked
        else
          let answers := s.collectAnswers questions
          if answers.length > 0 then Outcome.returns (s.sendResponse answers src)
          else Outcome.returns s

/-- sendGoodbye: build the record of the service with TTL 0, pack the message
of that one answer and write it to the multicast group; a failing build or
pack returns without writing. -/
def Server.sendGoodbye (s : Server) (service : ServicePtr) : Outcome :=
  match buildServiceRecord (some service) 0 with
  | BuildResult.panics => Outcome.panics
  | BuildResult.error _ => Outcome.returns s
  | BuildResult.ok record =>
    let msg : Message := { Header := replyHeader, Answers := [record] }
    match msg.Pack with
    | Except.error _ => Outcome.returns s
    | Except.ok _ => Outcome.returns { s with conn := s.conn ++ [{ msg := msg, dst := s.destAddr }] }

/-- One turn of the loop of run on an operation received from opChannel.
The mutex is taken; registerOp stores the service under its hostname, builds
its record and, when the build fails, goes on to the next turn of the loop
(continue) without reaching Unlock; unregisterOp sends the goodbye of the
service found under the hostname and deletes it from both maps. -/
def Server.runOp (s : Server) (o : operation) : Outcome :=
  if s.mu then Outcome.blocked
  else
    let s1 : Server := { s with mu := true }
    match o.service with
    | none => Outcome.panics
    | some p =>
      match o.op with
      | opKind.registerOp =>
        let s2 : Server := { s1 with services := s1.services.insert p.val.Hostname p }
        match buildServiceRecord (some p) defaultTTL with
        | BuildResult.panics => Outcome.panics
        | BuildResult.error _ => Outcome.returns s2
        | BuildResult.ok record =>
          Outcome.returns { s2 with records := s2.records.insert p.addr record, mu := false }
      | opKind.unregisterOp =>
        match s1.services.lookup p.val.Hostname with
        | some service =>
          match s1.sendGoodbye service with
          | Outcome.returns s2 =>
            Outcome.returns
              { s2 with records := s2.records.erase service.addr,
                        services := s2.services.erase p.val.Hostname, mu := false }
          | r => r
        | none => Outcome.returns { s1 with mu := false }

/-- The loop of run on the operations received before the shutdown signal. -/
def Server.run (s : Server) : List operation → Outcome
  | [] => Outcome.returns s
  | o :: os =>
    match s.runOp o with
    | Outcome.returns s1 => s1.run os
    | r => r

/-- The range loop of Shutdown over the services, in the order of the visit. -/
def Server.sweep (s : Server) : List ServicePtr → Outcome
  | [] => Outcome.returns s
  | service :: rest =>
    match s.sendGoodbye service with
    | Outcome.returns s1 => s1.sweep rest
    | r => r

/-- Shutdown: take the mutex, send the goodbye of every service of the map,
signal the shutdown channel, release the mutex on return.  The receive of the
signal by run is taken for granted. -/
def Server.Shutdown (s : Server) : Outcome :=
  if s.mu then Outcome.blocked
  else
    match ({ s with mu := true } : Server).sweep (s.services.entries.map (fun e => e.2)) with
    | Outcome.returns s1 => Outcome.returns { s1 with shutdown := s1.shutdown + 1, mu := false }
    | r => r

/-- Register: the operation sent on opChannel. -/
def Register (service : Option ServicePtr) : operation :=
  { op := opKind.registerOp, service := service }

/-- Unregister: the operation sent on opChannel; its service is a new Service
of the two arguments, at the address the allocator chose. -/
def Unregister (addr : Nat) (hostname : String) (IP : Option Addr) : operation :=
  { op := opKind.unregisterOp, service := some { addr := addr, val := { Hostname := hostname, IP := IP } } }

/-- The invariant run keeps on the hostname map: every service is stored under
its own hostname, and building its record does not panic (its IP pointer is
not nil, or its hostname is rejected before the pointer is read). -/
def Server.Inv (s : Server) : Prop :=
  ∀ e ∈ s.services.entries,
    e.2.val.Hostname = e.1 ∧ buildServiceRecord (some e.2) 0 ≠ BuildResult.panics

instance (s : Server) : Decidable s.Inv := by
  unfold Server.Inv
  infer_instance

/-- Every service of the hostname map has a record in the record map. -/
def Server.Covered (s : Server) : Prop :=
  ∀ e ∈ s.services.entries, (s.records.lookup e.2.addr).isSome = true

instance (s : Server) : Decidable s.Covered := by
  unfold Server.Covered
  infer_instance

/-- Every pointer of the hostname map reads the pointee that the heap holds
at its address: no pointee was changed after its registration. -/
def Server.OnHeap (heap : Nat → Service) (s : Server) : Prop :=
  ∀ e ∈ s.services.entries, e.2.val = heap e.2.addr

/-- The pointer of the operation, if any, reads the pointee the heap holds. -/
def operation.OnHeap (heap : Nat → Service) (o : operation) : Prop :=
  ∀ p, o.service = some p → p.val = heap p.addr

/-- The datagram d is the goodbye of the service p sent to dest: response and
authoritative flags, one answer of TTL 0 named after the hostname of p, whose
data are the address bytes of p. -/
def isGoodbyeOf (dest : UDPAddr) (p : ServicePtr) (d : Datagram) : Prop :=
  d.dst = dest ∧ d.msg.Header.Response = true ∧ d.msg.Header.Authoritative = true ∧
  ∃ r ip, d.msg.Answers = [r] ∧ r.Header.TTL = 0 ∧ r.Header.Name.String = p.val.Hostname ∧
    p.val.IP = some ip ∧
    (ip.Is4 = true → ∃ a4, ip.As4 = some a4 ∧ r.Header.Type_ = 1 ∧
      r.Body = ResourceBody.AResource a4) ∧
    (ip.Is6 = true → r.Header.Type_ = 28 ∧ r.Body = ResourceBody.AAAAResource ip.As16)

/-- The service p can be announced: its address is IPv4 or IPv6 and Name.pack
accepts its hostname. -/
def Announceable (p : ServicePtr) : Prop :=
  (∃ ip, p.val.IP = some ip ∧ (ip.Is4 = true ∨ ip.Is6 = true)) ∧
  (Name.mk p.val.Hostname).pack = Except.ok ()

/-- The test that decides whether the goodbye of p is written: an IPv4 or IPv6
address behind a non-nil pointer, and a hostname that Name.pack accepts. -/
def canAnnounce (p : ServicePtr) : Bool :=
  (match p.val.IP with
   | some ip => ip.Is4 || ip.Is6
   | none => false) &&
  decide ((Name.mk p.val.Hostname).pack = Except.ok ())

/-! ## Concrete inputs -/

/-- A service as cmd/main.go registers it: example.local. at 192.168.1.1. -/
def exampleService : ServicePtr :=
  { addr := 1, val := { Hostname := "example.local.", IP := some (AddrFrom4 192 168 1 1) } }

/-- A service whose hostname lacks the trailing dot. -/
def dotlessService : ServicePtr :=
  { addr := 2, val := { Hostname := "example.local", IP := some (AddrFrom4 192 168 1 1) } }

/-- A service whose address is the zero netip.Addr, neither IPv4 nor IPv6. -/
def zeroAddrService : ServicePtr :=
  { addr := 3, val := { Hostname := "example.local.", IP := some { hi := 0, lo := 0, z := Zone.z0 } } }

/-- A second service for example.local., at 192.168.1.2. -/
def exampleService2 : ServicePtr :=
  { addr := 4, val := { Hostname := "example.local.", IP := some (AddrFrom4 192 168 1 2) } }

/-- An IPv6 service: example.local. at 2001:db8::1. -/
def exampleService6 : ServicePtr :=
  { addr := 5,
    val := { Hostname := "example.local.",
             IP := some (AddrFrom16 0x20010db800000000 1 Zone.z6noz) } }

/-- The record run stores for exampleService. -/
def exampleRecord : Resource :=
  { Header := { Name := { Data := "example.local." }, Type_ := 1, Class := 0x8001,
                TTL := 120, Length := 0 },
    Body := ResourceBody.AResource [192, 168, 1, 1] }

/-- The server after the register turn for exampleService. -/
def exampleServer : Server :=
  { NewServer with
    services := AList.singleton "example.local." exampleService,
    records := AList.singleton exampleService.addr exampleRecord }

/-- The server after the register turn for dotlessService. -/
def dotlessServer : Server :=
  { NewServer with
    services := AList.singleton "example.local" dotlessService,
    records := AList.singleton dotlessService.addr
      { Header := { Name := { Data := "example.local" }, Type_ := 1, Class := 0x8001,
                    TTL := 120, Length := 0 },
        Body := ResourceBody.AResource [192, 168, 1, 1] } }

/-- The server after the register turns for exampleService and dotlessService. -/
def mixedServer : Server :=
  { NewServer with
    services := (AList.singleton "example.local." exampleService).insert
      "example.local" dotlessService,
    records := (AList.singleton exampleService.addr exampleRecord).insert dotlessService.addr
      { Header := { Name := { Data := "example.local" }, Type_ := 1, Class := 0x8001,
                    TTL := 120, Length := 0 },
        Body := ResourceBody.AResource [192, 168, 1, 1] } }

/-! ## Lemmas on the libraries -/

theorem classINET_cacheFlush : ClassINET ||| (1 <<< 15) = 0x8001 := by decide

theorem NewName_ok_iff (name : String) (host : Name) :
    NewName name = Except.ok host ↔ name.utf8ByteSize ≤ 255 ∧ host = { Data := name } := by
  unfold NewName nameLen
  by_cases h : name.utf8ByteSize > 255
  · simp [h]
  · have h1 : name.utf8ByteSize ≤ 255 := by omega
    simp only [h, if_false, h1, true_and]
    constructor
    · intro e
      cases e
      rfl
    · intro e
      rw [e]

theorem NewName_error_iff (name : String) (e : DnsError) :
    NewName name = Except.error e ↔ 255 < name.utf8ByteSize ∧ e = DnsError.errCalcLen := by
  unfold NewName nameLen
  by_cases h : name.utf8ByteSize > 255
  · simp only [h, if_true, true_and]
    constructor
    · intro e1
      cases e1
      rfl
    · intro e1
      rw [e1]
  · have h1 : ¬ 255 < name.utf8ByteSize := by omega
    simp [h, h1]

theorem bePutUint32_length (v : Nat) : (bePutUint32 v).length = 4 := rfl

theorem As16_length (ip : Addr) : ip.As16.length = 16 := rfl

theorem As4_of_Is4 (ip : Addr) (h : ip.Is4 = true) :
    ip.As4 = some (bePutUint32 (ip.lo % 2 ^ 32)) := by
  have hz : ip.z = Zone.z4 := by simpa [Addr.Is4] using h
  simp [Addr.As4, hz]

theorem As4_AddrFrom4 (a b c d : Nat) (ha : a < 256) (hb : b < 256) (hc : c < 256)
    (hd : d < 256) : (AddrFrom4 a b c d).As4 = some [a, b, c, d] := by
  rw [As4_of_Is4 _ (by simp [Addr.Is4, AddrFrom4])]
  simp only [AddrFrom4, bePutUint32, Option.some.injEq, List.cons.injEq, and_true]
  refine ⟨?_, ?_, ?_, ?_⟩ <;> omega

theorem Is6_not_Is4 (ip : Addr) (h : ip.Is6 = true) : ip.Is4 = false := by
  simp only [Addr.Is6, Bool.and_eq_true, decide_eq_true_eq] at h
  simp [Addr.Is4, h.2]

theorem bePutUint32_inj (a b : Nat) (ha : a < 2 ^ 32) (hb : b < 2 ^ 32)
    (h : bePutUint32 a = bePutUint32 b) : a = b := by
  simp only [bePutUint32, List.cons.injEq, and_true] at h
  omega

theorem bePutUint64_inj (a b : Nat) (ha : a < 2 ^ 64) (hb : b < 2 ^ 64)
    (h : bePutUint64 a = bePutUint64 b) : a = b := by
  simp only [bePutUint64, List.cons.injEq, and_true] at h
  omega

theorem As16_inj (x y : Addr) (hx : x.WF) (hy : y.WF) (h : x.As16 = y.As16) :
    x.hi = y.hi ∧ x.lo = y.lo := by
  unfold Addr.As16 at h
  have h1 := List.append_inj h rfl
  exact ⟨bePutUint64_inj _ _ hx.1 hy.1 h1.1, bePutUint64_inj _ _ hx.2.1 hy.2.1 h1.2⟩

/-! ## Lemmas on buildServiceRecord -/

theorem build_of_Is4 (p : ServicePtr) (ip : Addr) (ttl : Nat)
    (hlen : p.val.Hostname.utf8ByteSize ≤ 255) (hip : p.val.IP = some ip)
    (h4 : ip.Is4 = true) :
    buildServiceRecord (some p) ttl = BuildResult.ok
      { Header := { Name := { Data := p.val.Hostname }, Type_ := 1, Class := 0x8001,
                    TTL := ttl % 2 ^ 32, Length := 0 },
        Body := ResourceBody.AResource (bePutUint32 (ip.lo % 2 ^ 32)) } := by
  have hn : NewName p.val.Hostname = Except.ok { Data := p.val.Hostname } :=
    (NewName_ok_iff _ _).2 ⟨hlen, rfl⟩
  simp only [buildServiceRecord, hn, hip, h4, buildARecord, As4_of_Is4 ip h4, TypeA,
    classINET_cacheFlush, if_true]

theorem build_of_Is6 (p : ServicePtr) (ip : Addr) (ttl : Nat)
    (hlen : p.val.Hostname.utf8ByteSize ≤ 255) (hip : p.val.IP = some ip)
    (h6 : ip.Is6 = true) :
    buildServiceRecord (some p) ttl = BuildResult.ok
      { Header := { Name := { Data := p.val.Hostname }, Type_ := 28, Class := 0x8001,
                    TTL := ttl % 2 ^ 32, Length := 0 },
        Body := ResourceBody.AAAAResource ip.As16 } := by
  have hn : NewName p.val.Hostname = Except.ok { Data := p.val.Hostname } :=
    (NewName_ok_iff _ _).2 ⟨hlen, rfl⟩
  simp only [buildServiceRecord, hn, hip, h6, Is6_not_Is4 ip h6, buildAAAARecord, TypeAAAA,
    classINET_cacheFlush, if_true, Bool.false_eq_true, if_false]

theorem build_body_ne (p1 p2 : ServicePtr) (ip1 ip2 : Addr) (r1 r2 : Resource) (ttl : Nat)
    (hip1 : p1.val.IP = some ip1) (hip2 : p2.val.IP = some ip2)
    (hlen1 : p1.val.Hostname.utf8ByteSize ≤ 255) (hlen2 : p2.val.Hostname.utf8ByteSize ≤ 255)
    (hv1 : ip1.Is4 = true ∨ ip1.Is6 = true) (hv2 : ip2.Is4 = true ∨ ip2.Is6 = true)
    (hwf1 : ip1.WF) (hwf2 : ip2.WF) (hne : ip1.withoutZone ≠ ip2.withoutZone)
    (hb1 : buildServiceRecord (some p1) ttl = BuildResult.ok r1)
    (hb2 : buildServiceRecord (some p2) ttl = BuildResult.ok r2) : r1.Body ≠ r2.Body := by
  intro hbody
  apply hne
  rcases hv1 with h41 | h61 <;> rcases hv2 with h42 | h62
  · rw [build_of_Is4 p1 ip1 ttl hlen1 hip1 h41] at hb1
    rw [build_of_Is4 p2 ip2 ttl hlen2 hip2 h42] at hb2
    cases hb1
    cases hb2
    simp only [ResourceBody.AResource.injEq] at hbody
    have hlo := bePutUint32_inj _ _ (Nat.mod_lt _ (by norm_num)) (Nat.mod_lt _ (by norm_num))
      hbody
    have hz1 : ip1.z = Zone.z4 := by simpa [Addr.Is4] using h41
    have hz2 : ip2.z = Zone.z4 := by simpa [Addr.Is4] using h42
    obtain ⟨-, -, hw1, -⟩ := hwf1
    obtain ⟨-, -, hw2, -⟩ := hwf2
    have e1 := hw1 hz1
    have e2 := hw2 hz2
    have hip : ip1 = ip2 := by
      cases ip1
      cases ip2
      simp only [Addr.mk.injEq] at *
      refine ⟨by omega, by omega, by rw [hz1, hz2]⟩
    rw [hip]
  · rw [build_of_Is4 p1 ip1 ttl hlen1 hip1 h41] at hb1
    rw [build_of_Is6 p2 ip2 ttl hlen2 hip2 h62] at hb2
    cases hb1
    cases hb2
    cases hbody
  · rw [build_of_Is6 p1 ip1 ttl hlen1 hip1 h61] at hb1
    rw [build_of_Is4 p2 ip2 ttl hlen2 hip2 h42] at hb2
    cases hb1
    cases hb2
    cases hbody
  · rw [build_of_Is6 p1 ip1 ttl hlen1 hip1 h61] at hb1
    rw [build_of_Is6 p2 ip2 ttl hlen2 hip2 h62] at hb2
    cases hb1
    cases hb2
    simp only [ResourceBody.AAAAResource.injEq] at hbody
    obtain ⟨hhi, hlo⟩ := As16_inj ip1 ip2 hwf1 hwf2 hbody
    simp only [Addr.withoutZone, h61, h62, if_true, hhi, hlo]

/-! ## Lemmas on the server -/

theorem collectAnswers_foldl (s : Server) (questions : List Question) (acc : List Resource) :
    questions.foldl
      (fun answers q =>
        match s.answer q with
        | some record => answers ++ [record]
        | none => answers)
      acc = acc ++ questions.flatMap (fun q => (s.answer q).toList) := by
  induction questions generalizing acc with
  | nil => simp
  | cons q qs ih =>
    rw [List.foldl_cons, ih]
    cases h : s.answer q <;> simp [List.flatMap_cons, h]

theorem collectAnswers_eq_flatMap (s : Server) (questions : List Question) :
    s.collectAnswers questions = questions.flatMap (fun q => (s.answer q).toList) := by
  unfold Server.collectAnswers
  rw [collectAnswers_foldl]
  rfl

theorem collectAnswers_single (s : Server) (q : Question) :
    s.collectAnswers [q] = (s.answer q).toList := by
  rw [collectAnswers_eq_flatMap]
  simp [List.flatMap_cons]

theorem answer_of_lookup (s : Server) (q : Question) (p : ServicePtr) (r : Resource)
    (hs : s.services.lookup q.Name.String = some p) (hr : s.records.lookup p.addr = some r) :
    s.answer q = if q.Type_ = r.Header.Type_ ∧ (q.Type_ = TypeA ∨ q.Type_ = TypeAAAA)
      then some r else none := by
  unfold Server.answer
  by_cases h1 : q.Type_ ≠ TypeA ∧ q.Type_ ≠ TypeAAAA
  · have h2 : ¬ (q.Type_ = TypeA ∨ q.Type_ = TypeAAAA) := by tauto
    simp [h1, h2]
  · have h2 : q.Type_ = TypeA ∨ q.Type_ = TypeAAAA := by tauto
    simp only [h1, if_false, hs, hr, h2, and_true]
    by_cases h3 : r.Header.Type_ = q.Type_
    · simp [h3]
    · have h4 : ¬ q.Type_ = r.Header.Type_ := fun h => h3 h.symm
      simp [h3, h4]

theorem answer_of_unregistered (s : Server) (q : Question)
    (hs : s.services.lookup q.Name.String = none) : s.answer q = none := by
  unfold Server.answer
  by_cases h1 : q.Type_ ≠ TypeA ∧ q.Type_ ≠ TypeAAAA
  · simp [h1]
  · simp [h1, hs]

theorem handleQuery_of_query (s : Server) (hd : Header) (q : Question)
    (qs : List Question) (src : UDPAddr) (hr : hd.Response = false) (hmu : s.mu = false) :
    s.handleQuery { header := Except.ok hd, questions := Except.ok (q :: qs) } src =
      if (s.collectAnswers (q :: qs)).length > 0
      then Outcome.returns (s.sendResponse (s.collectAnswers (q :: qs)) src)
      else Outcome.returns s := by
  simp [Server.handleQuery, hr, hmu]

theorem runOp_register_ok (s : Server) (p : ServicePtr) (r : Resource) (hmu : s.mu = false)
    (hb : buildServiceRecord (some p) defaultTTL = BuildResult.ok r) :
    s.runOp (Register (some p)) = Outcome.returns
      { s with services := s.services.insert p.val.Hostname p,
               records := s.records.insert p.addr r, mu := false } := by
  simp [Server.runOp, Register, hmu, hb]

theorem runOp_register_error (s : Server) (p : ServicePtr) (e : BuildError)
    (hmu : s.mu = false)
    (hb : buildServiceRecord (some p) defaultTTL = BuildResult.error e) :
    s.runOp (Register (some p)) = Outcome.returns
      { s with services := s.services.insert p.val.Hostname p, mu := true } := by
  simp [Server.runOp, Register, hmu, hb]

theorem runOp_unregister_absent (s : Server) (a : Nat) (h : String) (ipArg : Option Addr)
    (hmu : s.mu = false) (hs : s.services.lookup h = none) :
    s.runOp (Unregister a h ipArg) = Outcome.returns s := by
  simp only [Server.runOp, Unregister, hmu, hs]
  cases s
  simp_all

theorem runOp_unregister_present (s s2 : Server) (a : Nat) (h : String)
    (ipArg : Option Addr) (p : ServicePtr) (hmu : s.mu = false)
    (hs : s.services.lookup h = some p)
    (hg : ({ s with mu := true } : Server).sendGoodbye p = Outcome.returns s2) :
    s.runOp (Unregister a h ipArg) = Outcome.returns
      { s2 with records := s2.records.erase p.addr, services := s2.services.erase h,
                mu := false } := by
  simp only [Server.runOp, Unregister, hmu, hs, hg]
  rfl

theorem sendGoodbye_ok (s : Server) (p : ServicePtr) (r : Resource)
    (hb : buildServiceRecord (some p) 0 = BuildResult.ok r)
    (hp : r.Header.Name.pack = Except.ok ()) :
    s.sendGoodbye p = Outcome.returns
      { s with conn := s.conn ++
          [{ msg := { Header := replyHeader, Answers := [r] }, dst := s.destAddr }] } := by
  simp [Server.sendGoodbye, hb, Message.Pack, packResources, hp]

theorem sendGoodbye_cases (s : Server) (p : ServicePtr) :
    s.sendGoodbye p = Outcome.panics ∨
    ∃ conn, s.sendGoodbye p = Outcome.returns { s with conn := conn } := by
  unfold Server.sendGoodbye
  cases buildServiceRecord (some p) 0 with
  | panics => exact Or.inl rfl
  | error e => exact Or.inr ⟨s.conn, rfl⟩
  | ok r =>
    right
    simp only
    split
    · exact ⟨s.conn, rfl⟩
    · exact ⟨_, rfl⟩

theorem Inv_iff_lookup (s : Server) :
    s.Inv ↔ ∀ h p, s.services.lookup h = some p →
      p.val.Hostname = h ∧ buildServiceRecord (some p) 0 ≠ BuildResult.panics := by
  constructor
  · intro hinv h p hs
    exact hinv ⟨h, p⟩ (AList.mem_lookup_iff.1 (by rw [hs]; exact rfl))
  · intro hl e he
    obtain ⟨h, p⟩ := e
    have hm := AList.mem_lookup_iff.2 he
    exact hl h p (Option.mem_def.1 hm)

theorem build_panics_iff (p : ServicePtr) (t : Nat) :
    buildServiceRecord (some p) t = BuildResult.panics ↔
      p.val.Hostname.utf8ByteSize ≤ 255 ∧ p.val.IP = none := by
  by_cases hlen : p.val.Hostname.utf8ByteSize ≤ 255
  · cases hip : p.val.IP with
    | none =>
      have hn : NewName p.val.Hostname = Except.ok { Data := p.val.Hostname } :=
        (NewName_ok_iff _ _).2 ⟨hlen, rfl⟩
      simp [buildServiceRecord, hn, hip, hlen]
    | some ip =>
      by_cases h4 : ip.Is4 = true
      · rw [build_of_Is4 p ip t hlen hip h4]
        simp
      · by_cases h6 : ip.Is6 = true
        · rw [build_of_Is6 p ip t hlen hip h6]
          simp
        · have hn : NewName p.val.Hostname = Except.ok { Data := p.val.Hostname } :=
            (NewName_ok_iff _ _).2 ⟨hlen, rfl⟩
          simp [buildServiceRecord, hn, hip, h4, h6]
  · have hn : NewName p.val.Hostname = Except.error DnsError.errCalcLen :=
      (NewName_error_iff _ _).2 ⟨by omega, rfl⟩
    simp [buildServiceRecord, hn, hlen]

theorem build_panics_ttl (p : ServicePtr) (t1 t2 : Nat)
    (h : buildServiceRecord (some p) t1 = BuildResult.panics) :
    buildServiceRecord (some p) t2 = BuildResult.panics :=
  (build_panics_iff p t2).2 ((build_panics_iff p t1).1 h)

theorem Inv_NewServer : NewServer.Inv := by decide

theorem runOp_Inv (s s1 : Server) (o : operation) (hinv : s.Inv)
    (hrun : s.runOp o = Outcome.returns s1) : s1.Inv := by
  rw [Inv_iff_lookup] at hinv ⊢
  unfold Server.runOp at hrun
  split at hrun
  · cases hrun
  · cases hsvc : o.service with
    | none => simp [hsvc] at hrun
    | some p =>
      cases hop : o.op with
      | registerOp =>
        simp only [hsvc, hop] at hrun
        have key : ∀ h q, (s.services.insert p.val.Hostname p).lookup h = some q →
            buildServiceRecord (some p) defaultTTL ≠ BuildResult.panics →
            q.val.Hostname = h ∧ buildServiceRecord (some q) 0 ≠ BuildResult.panics := by
          intro h q hq hnp
          by_cases hh : h = p.val.Hostname
          · subst hh
            rw [AList.lookup_insert] at hq
            cases hq
            exact ⟨rfl, fun hp => hnp (build_panics_ttl _ _ _ hp)⟩
          · rw [AList.lookup_insert_ne hh] at hq
            exact hinv h q hq
        cases hb : buildServiceRecord (some p) defaultTTL with
        | panics => simp [hb] at hrun
        | error e =>
          simp only [hb, Outcome.returns.injEq] at hrun
          subst hrun
          intro h q hq
          exact key h q hq (by rw [hb]; simp)
        | ok r =>
          simp only [hb, Outcome.returns.injEq] at hrun
          subst hrun
          intro h q hq
          exact key h q hq (by rw [hb]; simp)
      | unregisterOp =>
        simp only [hsvc, hop] at hrun
        cases hs : s.services.lookup p.val.Hostname with
        | none =>
          simp only [hs, Outcome.returns.injEq] at hrun
          subst hrun
          exact hinv
        | some q =>
          simp only [hs] at hrun
          rcases sendGoodbye_cases { s with mu := true } q with hp | ⟨conn, hc⟩
          · simp [hp] at hrun
          · simp only [hc, Outcome.returns.injEq] at hrun
            subst hrun
            intro h q1 hq1
            by_cases hh : h = p.val.Hostname
            · subst hh
              simp only [AList.lookup_erase] at hq1
              cases hq1
            · simp only [AList.lookup_erase_ne hh] at hq1
              exact hinv h q1 hq1

theorem run_Inv (ops : List operation) :
    ∀ s s1 : Server, s.Inv → s.run ops = Outcome.returns s1 → s1.Inv := by
  induction ops with
  | nil =>
    intro s s1 hinv hrun
    simp only [Server.run, Outcome.returns.injEq] at hrun
    subst hrun
    exact hinv
  | cons o os ih =>
    intro s s1 hinv hrun
    simp only [Server.run] at hrun
    cases ho : s.runOp o with
    | returns s2 =>
      rw [ho] at hrun
      exact ih s2 s1 (runOp_Inv s s2 o hinv ho) hrun
    | blocked => simp [ho] at hrun
    | panics => simp [ho] at hrun

theorem runOp_mutex (s s1 : Server) (o : operation)
    (hrun : s.runOp o = Outcome.returns s1) :
    s1.mu = false ∨
    (s1.mu = true ∧ ∃ p e, o = Register (some p) ∧
      buildServiceRecord (some p) defaultTTL = BuildResult.error e) := by
  unfold Server.runOp at hrun
  split at hrun
  · cases hrun
  · cases hsvc : o.service with
    | none => simp [hsvc] at hrun
    | some p =>
      cases hop : o.op with
      | registerOp =>
        simp only [hsvc, hop] at hrun
        cases hb : buildServiceRecord (some p) defaultTTL with
        | panics => simp [hb] at hrun
        | error e =>
          simp only [hb, Outcome.returns.injEq] at hrun
          subst hrun
          refine Or.inr ⟨rfl, p, e, ?_, hb⟩
          cases o
          simp_all [Register]
        | ok r =>
          simp only [hb, Outcome.returns.injEq] at hrun
          subst hrun
          exact Or.inl rfl
      | unregisterOp =>
        simp only [hsvc, hop] at hrun
        cases hs : s.services.lookup p.val.Hostname with
        | none =>
          simp only [hs, Outcome.returns.injEq] at hrun
          subst hrun
          exact Or.inl rfl
        | some q =>
          simp only [hs] at hrun
          rcases sendGoodbye_cases { s with mu := true } q with hp | ⟨conn, hc⟩
          · simp [hp] at hrun
          · simp only [hc, Outcome.returns.injEq] at hrun
            subst hrun
            exact Or.inl rfl

theorem Covered_iff_lookup (s : Server) :
    s.Covered ↔ ∀ h p, s.services.lookup h = some p →
      (s.records.lookup p.addr).isSome = true := by
  constructor
  · intro hc h p hs
    exact hc ⟨h, p⟩ (AList.mem_lookup_iff.1 (by rw [hs]; exact rfl))
  · intro hl e he
    obtain ⟨h, p⟩ := e
    have hm := AList.mem_lookup_iff.2 he
    exact hl h p (Option.mem_def.1 hm)

theorem Covered_NewServer : NewServer.Covered := by decide

theorem runOp_OnHeap (heap : Nat → Service) (s s1 : Server) (o : operation)
    (hs : s.OnHeap heap) (ho : o.OnHeap heap) (hrun : s.runOp o = Outcome.returns s1) :
    s1.OnHeap heap := by
  have hl : ∀ h p, s.services.lookup h = some p → p.val = heap p.addr := by
    intro h p hp
    exact hs ⟨h, p⟩ (AList.mem_lookup_iff.1 (by rw [hp]; exact rfl))
  have goal : ∀ h p, s1.services.lookup h = some p → p.val = heap p.addr := by
    unfold Server.runOp at hrun
    split at hrun
    · cases hrun
    · cases hsvc : o.service with
      | none => simp [hsvc] at hrun
      | some p =>
        have hp : p.val = heap p.addr := ho p hsvc
        have key : ∀ h q, (s.services.insert p.val.Hostname p).lookup h = some q →
            q.val = heap q.addr := by
          intro h q hq
          by_cases hh : h = p.val.Hostname
          · subst hh
            rw [AList.lookup_insert] at hq
            cases hq
            exact hp
          · rw [AList.lookup_insert_ne hh] at hq
            exact hl h q hq
        cases hop : o.op with
        | registerOp =>
          simp only [hsvc, hop] at hrun
          cases hb : buildServiceRecord (some p) defaultTTL with
          | panics => simp [hb] at hrun
          | error e =>
            simp only [hb, Outcome.returns.injEq] at hrun
            subst hrun
            exact key
          | ok r =>
            simp only [hb, Outcome.returns.injEq] at hrun
            subst hrun
            exact key
        | unregisterOp =>
          simp only [hsvc, hop] at hrun
          cases hq : s.services.lookup p.val.Hostname with
          | none =>
            simp only [hq, Outcome.returns.injEq] at hrun
            subst hrun
            exact hl
          | some q =>
            simp only [hq] at hrun
            rcases sendGoodbye_cases { s with mu := true } q with hpn | ⟨conn, hcn⟩
            · simp [hpn] at hrun
            · simp only [hcn, Outcome.returns.injEq] at hrun
              subst hrun
              intro h q1 hq1
              by_cases hh : h = p.val.Hostname
              · subst hh
                simp only [AList.lookup_erase] at hq1
                cases hq1
              · simp only [AList.lookup_erase_ne hh] at hq1
                exact hl h q1 hq1
  intro e he
  obtain ⟨h, p⟩ := e
  exact goal h p (Option.mem_def.1 (AList.mem_lookup_iff.2 he))

theorem runOp_Covered (heap : Nat → Service) (s s1 : Server) (o : operation)
    (hheap : s.OnHeap heap) (hinv : s.Inv) (hc : s.Covered)
    (hrun : s.runOp o = Outcome.returns s1) (hmu1 : s1.mu = false) : s1.Covered := by
  have hl : ∀ h p, s.services.lookup h = some p → p.val = heap p.addr := by
    intro h p hp
    exact hheap ⟨h, p⟩ (AList.mem_lookup_iff.1 (by rw [hp]; exact rfl))
  rw [Inv_iff_lookup] at hinv
  rw [Covered_iff_lookup] at hc ⊢
  unfold Server.runOp at hrun
  split at hrun
  · cases hrun
  · cases hsvc : o.service with
    | none => simp [hsvc] at hrun
    | some p =>
      cases hop : o.op with
      | registerOp =>
        simp only [hsvc, hop] at hrun
        cases hb : buildServiceRecord (some p) defaultTTL with
        | panics => simp [hb] at hrun
        | error e =>
          simp only [hb, Outcome.returns.injEq] at hrun
          subst hrun
          cases hmu1
        | ok r =>
          simp only [hb, Outcome.returns.injEq] at hrun
          subst hrun
          intro h q hq
          by_cases hqp : q.addr = p.addr
          · rw [hqp]
            simp only [AList.lookup_insert, Option.isSome_some]
          · have hh : h ≠ p.val.Hostname := by
              intro hh
              subst hh
              simp only [AList.lookup_insert, Option.some.injEq] at hq
              exact hqp (by rw [hq])
            simp only [AList.lookup_insert_ne hh] at hq
            simp only [AList.lookup_insert_ne hqp]
            exact hc h q hq
      | unregisterOp =>
        simp only [hsvc, hop] at hrun
        cases hs : s.services.lookup p.val.Hostname with
        | none =>
          simp only [hs, Outcome.returns.injEq] at hrun
          subst hrun
          exact hc
        | some q =>
          simp only [hs] at hrun
          rcases sendGoodbye_cases { s with mu := true } q with hp | ⟨conn, hcn⟩
          · simp [hp] at hrun
          · simp only [hcn, Outcome.returns.injEq] at hrun
            subst hrun
            intro h q1 hq1
            by_cases hh : h = p.val.Hostname
            · subst hh
              simp only [AList.lookup_erase] at hq1
              cases hq1
            · simp only [AList.lookup_erase_ne hh] at hq1
              have hne : q1.addr ≠ q.addr := by
                intro e
                have e1 := (hinv h q1 hq1).1
                have e2 := (hinv _ q hs).1
                have v1 := hl h q1 hq1
                have v2 := hl _ q hs
                rw [e, ← v2] at v1
                rw [v1] at e1
                exact hh (e1.symm.trans e2)
              simp only [AList.lookup_erase_ne hne]
              exact hc h q1 hq1

theorem run_of_held (ops : List operation) (s s1 : Server) (hmu : s.mu = true)
    (hrun : s.run ops = Outcome.returns s1) : s1 = s := by
  cases ops with
  | nil =>
    simp only [Server.run, Outcome.returns.injEq] at hrun
    exact hrun.symm
  | cons o os => simp [Server.run, Server.runOp, hmu] at hrun

theorem run_Covered (heap : Nat → Service) (ops : List operation) :
    ∀ s s1 : Server, s.OnHeap heap → (∀ o ∈ ops, o.OnHeap heap) → s.Inv → s.Covered →
      s.run ops = Outcome.returns s1 → s1.mu = false → s1.Covered := by
  induction ops with
  | nil =>
    intro s s1 _ _ _ hc hrun _
    simp only [Server.run, Outcome.returns.injEq] at hrun
    subst hrun
    exact hc
  | cons o os ih =>
    intro s s1 hheap hops hinv hc hrun hmu1
    simp only [Server.run] at hrun
    cases ho : s.runOp o with
    | returns s2 =>
      rw [ho] at hrun
      have hmu2 : s2.mu = false := by
        cases hm : s2.mu with
        | false => rfl
        | true =>
          have := run_of_held os s2 s1 hm hrun
          rw [this, hm] at hmu1
          cases hmu1
      have ho1 : o.OnHeap heap := hops o (List.mem_cons_self _ _)
      exact ih s2 s1 (runOp_OnHeap heap s s2 o hheap ho1 ho)
        (fun o2 h2 => hops o2 (List.mem_cons_of_mem _ h2)) (runOp_Inv s s2 o hinv ho)
        (runOp_Covered heap s s2 o hheap hinv hc ho hmu2) hrun hmu1
    | blocked => simp [ho] at hrun
    | panics => simp [ho] at hrun

theorem pack_ok_len (h : String) (hp : (Name.mk h).pack = Except.ok ()) :
    h.utf8ByteSize ≤ 254 := by
  unfold Name.pack nonEncodedNameMax at hp
  by_contra hlen
  have h1 : h.utf8ByteSize > 254 := by omega
  simp [h1] at hp

theorem sendGoodbye_announceable (s : Server) (p : ServicePtr) (hp : Announceable p) :
    ∃ d, isGoodbyeOf s.destAddr p d ∧
      s.sendGoodbye p = Outcome.returns { s with conn := s.conn ++ [d] } := by
  obtain ⟨⟨ip, hip, h46⟩, hpack⟩ := hp
  have hlen : p.val.Hostname.utf8ByteSize ≤ 255 := by
    have := pack_ok_len _ hpack
    omega
  rcases h46 with h4 | h6
  · have hb := build_of_Is4 p ip 0 hlen hip h4
    refine ⟨_, ?_, sendGoodbye_ok s p _ hb hpack⟩
    refine ⟨rfl, rfl, rfl, _, ip, rfl, rfl, rfl, hip, ?_, ?_⟩
    · intro _
      exact ⟨_, As4_of_Is4 ip h4, rfl, rfl⟩
    · intro h6
      rw [Is6_not_Is4 ip h6] at h4
      cases h4
  · have hb := build_of_Is6 p ip 0 hlen hip h6
    refine ⟨_, ?_, sendGoodbye_ok s p _ hb hpack⟩
    refine ⟨rfl, rfl, rfl, _, ip, rfl, rfl, rfl, hip, ?_, ?_⟩
    · intro h4
      rw [Is6_not_Is4 ip h6] at h4
      cases h4
    · intro _
      exact ⟨rfl, rfl⟩

theorem sweep_announceable (ps : List ServicePtr) :
    ∀ s : Server, (∀ p ∈ ps, Announceable p) →
      ∃ sent, List.Forall₂ (isGoodbyeOf s.destAddr) ps sent ∧
        s.sweep ps = Outcome.returns { s with conn := s.conn ++ sent } := by
  induction ps with
  | nil =>
    intro s _
    exact ⟨[], List.Forall₂.nil, by simp [Server.sweep]⟩
  | cons p ps ih =>
    intro s hall
    obtain ⟨d, hd, hsend⟩ := sendGoodbye_announceable s p (hall p (List.mem_cons_self _ _))
    obtain ⟨sent, hsent, hsweep⟩ := ih { s with conn := s.conn ++ [d] }
      (fun q hq => hall q (List.mem_cons_of_mem _ hq))
    refine ⟨d :: sent, List.Forall₂.cons hd hsent, ?_⟩
    simp only [Server.sweep, hsend, hsweep, List.append_assoc, List.singleton_append]

theorem canAnnounce_iff (p : ServicePtr) : canAnnounce p = true ↔ Announceable p := by
  unfold canAnnounce Announceable
  cases hip : p.val.IP with
  | none => simp
  | some ip => simp

theorem build_ok_name (p : ServicePtr) (t : Nat) (r : Resource)
    (hb : buildServiceRecord (some p) t = BuildResult.ok r) :
    r.Header.Name = { Data := p.val.Hostname } ∧
      ∃ ip, p.val.IP = some ip ∧ (ip.Is4 = true ∨ ip.Is6 = true) := by
  by_cases hlen : p.val.Hostname.utf8ByteSize ≤ 255
  · cases hip : p.val.IP with
    | none =>
      have := (build_panics_iff p t).2 ⟨hlen, hip⟩
      rw [this] at hb
      cases hb
    | some ip =>
      by_cases h4 : ip.Is4 = true
      · rw [build_of_Is4 p ip t hlen hip h4] at hb
        cases hb
        exact ⟨rfl, ip, rfl, Or.inl h4⟩
      · by_cases h6 : ip.Is6 = true
        · rw [build_of_Is6 p ip t hlen hip h6] at hb
          cases hb
          exact ⟨rfl, ip, rfl, Or.inr h6⟩
        · have hn : NewName p.val.Hostname = Except.ok { Data := p.val.Hostname } :=
            (NewName_ok_iff _ _).2 ⟨hlen, rfl⟩
          simp [buildServiceRecord, hn, hip, h4, h6] at hb
  · have hn : NewName p.val.Hostname = Except.error DnsError.errCalcLen :=
      (NewName_error_iff _ _).2 ⟨by omega, rfl⟩
    simp [buildServiceRecord, hn] at hb

theorem sendGoodbye_skip (s : Server) (p : ServicePtr) (hn : ¬ Announceable p)
    (hnp : buildServiceRecord (some p) 0 ≠ BuildResult.panics) :
    s.sendGoodbye p = Outcome.returns s := by
  unfold Server.sendGoodbye
  cases hb : buildServiceRecord (some p) 0 with
  | panics => exact absurd hb hnp
  | error e => rfl
  | ok r =>
    obtain ⟨hname, hip⟩ := build_ok_name p 0 r hb
    have hpack : r.Header.Name.pack ≠ Except.ok () := by
      intro hp
      rw [hname] at hp
      exact hn ⟨hip, hp⟩
    cases hq : r.Header.Name.pack with
    | ok u => exact absurd hq hpack
    | error e => simp [Message.Pack, packResources, hq]

theorem sweep_filter (ps : List ServicePtr) :
    ∀ s : Server, (∀ p ∈ ps, buildServiceRecord (some p) 0 ≠ BuildResult.panics) →
      ∃ sent, List.Forall₂ (isGoodbyeOf s.destAddr) (ps.filter canAnnounce) sent ∧
        s.sweep ps = Outcome.returns { s with conn := s.conn ++ sent } := by
  induction ps with
  | nil =>
    intro s _
    exact ⟨[], List.Forall₂.nil, by simp [Server.sweep]⟩
  | cons p ps ih =>
    intro s hall
    by_cases hp : canAnnounce p = true
    · obtain ⟨d, hd, hsend⟩ := sendGoodbye_announceable s p ((canAnnounce_iff p).1 hp)
      obtain ⟨sent, hsent, hsweep⟩ := ih { s with conn := s.conn ++ [d] }
        (fun q hq => hall q (List.mem_cons_of_mem _ hq))
      refine ⟨d :: sent, ?_, ?_⟩
      · rw [List.filter_cons_of_pos hp]
        exact List.Forall₂.cons hd hsent
      · simp only [Server.sweep, hsend, hsweep, List.append_assoc, List.singleton_append]
    · have hskip := sendGoodbye_skip s p (fun h => hp ((canAnnounce_iff p).2 h))
        (hall p (List.mem_cons_self _ _))
      obtain ⟨sent, hsent, hsweep⟩ := ih s (fun q hq => hall q (List.mem_cons_of_mem _ hq))
      refine ⟨sent, ?_, ?_⟩
      · rw [List.filter_cons_of_neg hp]
        exact hsent
      · simp only [Server.sweep, hskip, hsweep]

/-! ## The record builder -/

/-- C1: for a service whose hostname NewName accepts and a 32-bit ttl,
buildServiceRecord returns a record named after the hostname, with that TTL
and class 0x8001; it is an A record of the 4 bytes of As4 when the address
is IPv4 and an AAAA record of the 16 bytes of As16 when it is IPv6. -/
theorem buildServiceRecord_spec (p : ServicePtr) (host : Name) (ip : Addr) (ttl : Nat)
    (hname : NewName p.val.Hostname = Except.ok host) (hip : p.val.IP = some ip)
    (httl : ttl < 2 ^ 32) :
    host.String = p.val.Hostname ∧
    (ip.Is4 = true → ∃ a4, ip.As4 = some a4 ∧ a4.length = 4 ∧
      buildServiceRecord (some p) ttl = BuildResult.ok
        { Header := { Name := host, Type_ := 1, Class := 0x8001, TTL := ttl, Length := 0 },
          Body := ResourceBody.AResource a4 }) ∧
    (ip.Is6 = true → ip.As16.length = 16 ∧
      buildServiceRecord (some p) ttl = BuildResult.ok
        { Header := { Name := host, Type_ := 28, Class := 0x8001, TTL := ttl, Length := 0 },
          Body := ResourceBody.AAAAResource ip.As16 }) := by
  obtain ⟨hlen, hhost⟩ := (NewName_ok_iff _ _).1 hname
  subst hhost
  refine ⟨rfl, ?_, ?_⟩
  · intro h4
    refine ⟨_, As4_of_Is4 ip h4, rfl, ?_⟩
    rw [build_of_Is4 p ip ttl hlen hip h4, Nat.mod_eq_of_lt httl]
  · intro h6
    refine ⟨rfl, ?_⟩
    rw [build_of_Is6 p ip ttl hlen hip h6, Nat.mod_eq_of_lt httl]

/-- The theorem of C1 at example.local. / 192.168.1.1 with ttl 120: an A record
of the bytes 192, 168, 1, 1. -/
theorem buildServiceRecord_spec_witness :
    buildServiceRecord (some exampleService) 120 = BuildResult.ok
      { Header := { Name := { Data := "example.local." }, Type_ := 1, Class := 0x8001,
                    TTL := 120, Length := 0 },
        Body := ResourceBody.AResource [192, 168, 1, 1] } := by
  obtain ⟨a4, h1, -, h2⟩ :=
    (buildServiceRecord_spec exampleService { Data := "example.local." }
      (AddrFrom4 192 168 1 1) 120 (by decide) rfl (by decide)).2.1 (by decide)
  have h3 : (AddrFrom4 192 168 1 1).As4 = some [192, 168, 1, 1] := by decide
  rw [h3] at h1
  cases h1
  exact h2

/-- C2, as stated, fails: the hostname example.local has no trailing dot (and
Name.pack rejects it), yet buildServiceRecord returns a record for it. -/
theorem buildServiceRecord_accepts_dotless :
    dotlessService.val.Hostname.data.getLast? ≠ some '.' ∧
    (Name.mk dotlessService.val.Hostname).pack = Except.error DnsError.errNonCanonicalName ∧
    buildServiceRecord (some dotlessService) 120 = BuildResult.ok
      { Header := { Name := { Data := "example.local" }, Type_ := 1, Class := 0x8001,
                    TTL := 120, Length := 0 },
        Body := ResourceBody.AResource [192, 168, 1, 1] } := by
  decide

/-- C2, amended: buildServiceRecord returns the invalid-hostname error exactly
for the hostnames NewName rejects, those longer than 255 bytes, whatever the
address and the ttl; a shorter hostname never gives that error. -/
theorem buildServiceRecord_invalidHostname_iff (p : ServicePtr) (ttl : Nat) :
    (∃ e, buildServiceRecord (some p) ttl =
        BuildResult.error (BuildError.invalidHostname p.val.Hostname e)) ↔
      255 < p.val.Hostname.utf8ByteSize := by
  constructor
  · rintro ⟨e, he⟩
    by_contra hlen
    have hn : NewName p.val.Hostname = Except.ok { Data := p.val.Hostname } :=
      (NewName_ok_iff _ _).2 ⟨by omega, rfl⟩
    simp only [buildServiceRecord, hn] at he
    cases hip : p.val.IP with
    | none => simp [hip] at he
    | some ip =>
      simp only [hip, buildARecord, buildAAAARecord] at he
      split at he
      · split at he <;> simp at he
      · split at he <;> simp at he
  · intro hlen
    have hn : NewName p.val.Hostname = Except.error DnsError.errCalcLen :=
      (NewName_error_iff _ _).2 ⟨hlen, rfl⟩
    exact ⟨DnsError.errCalcLen, by simp [buildServiceRecord, hn]⟩

/-! ## The operational loop and the listener -/

/-- C3, as the code runs: when the build of the record returns an error, the
register turn of run has already stored the service under its hostname; only
the record map is as before. -/
theorem runOp_register_failed_build_stores_service (s : Server) (p : ServicePtr)
    (e : BuildError) (hmu : s.mu = false)
    (hb : buildServiceRecord (some p) defaultTTL = BuildResult.error e) :
    ∃ s1, s.runOp (Register (some p)) = Outcome.returns s1 ∧
      s1.services.lookup p.val.Hostname = some p ∧ s1.records = s.records := by
  refine ⟨_, runOp_register_error s p e hmu hb, ?_, rfl⟩
  exact AList.lookup_insert _

/-- The theorem of C3 at the new server and a service with the zero address:
the hostname example.local. is absent before the turn and present after it. -/
theorem runOp_register_failed_build_stores_service_witness :
    NewServer.services.lookup "example.local." = none ∧
    ∃ s1, NewServer.runOp (Register (some zeroAddrService)) = Outcome.returns s1 ∧
      s1.services.lookup zeroAddrService.val.Hostname = some zeroAddrService ∧
      s1.records = NewServer.records :=
  ⟨by decide,
   runOp_register_failed_build_stores_service NewServer zeroAddrService
     (BuildError.unsupportedIPVersion { hi := 0, lo := 0, z := Zone.z0 }) rfl (by decide)⟩

/-- C4: after a register turn for a service with an accepted hostname and an
IPv4 address the mutex is free again, and handleQuery on a packet with the
single question (hostname, A) collects exactly the A record of that address
with TTL 120 and class 0x8001, which it hands to sendResponse (and which is
written to the querier when the name packs); on a packet with the single
question (hostname, AAAA) it collects nothing and writes nothing. -/
theorem register_then_query (s : Server) (p : ServicePtr) (host : Name) (ip : Addr)
    (c : Nat) (hmu : s.mu = false) (hname : NewName p.val.Hostname = Except.ok host)
    (hip : p.val.IP = some ip) (h4 : ip.Is4 = true) :
    host.String = p.val.Hostname ∧
    ∃ s1 a4, s.runOp (Register (some p)) = Outcome.returns s1 ∧ s1.mu = false ∧
      ip.As4 = some a4 ∧
      s1.collectAnswers [{ Name := host, Type_ := TypeA, Class := c }] =
        [{ Header := { Name := host, Type_ := 1, Class := 0x8001, TTL := 120, Length := 0 },
           Body := ResourceBody.AResource a4 }] ∧
      s1.collectAnswers [{ Name := host, Type_ := TypeAAAA, Class := c }] = [] ∧
      ∀ (hd : Header) (src : UDPAddr), hd.Response = false →
        s1.handleQuery
            { header := Except.ok hd,
              questions := Except.ok [{ Name := host, Type_ := TypeAAAA, Class := c }] } src =
          Outcome.returns s1 ∧
        s1.handleQuery
            { header := Except.ok hd,
              questions := Except.ok [{ Name := host, Type_ := TypeA, Class := c }] } src =
          Outcome.returns (s1.sendResponse
            [{ Header := { Name := host, Type_ := 1, Class := 0x8001, TTL := 120,
                           Length := 0 },
               Body := ResourceBody.AResource a4 }] src) ∧
        (host.pack = Except.ok () →
          s1.handleQuery
              { header := Except.ok hd,
                questions := Except.ok [{ Name := host, Type_ := TypeA, Class := c }] } src =
            Outcome.returns
              { s1 with conn := s1.conn ++
                  [{ msg := { Header := { ID := 0, Response := true, Authoritative := true },
                              Answers :=
                                [{ Header := { Name := host, Type_ := 1, Class := 0x8001,
                                               TTL := 120, Length := 0 },
                                   Body := ResourceBody.AResource a4 }] },
                     dst := src }] }) := by
  obtain ⟨hlen, hhost⟩ := (NewName_ok_iff _ _).1 hname
  subst hhost
  have hb := build_of_Is4 p ip defaultTTL hlen hip h4
  obtain ⟨s1, hrun, hmu1, hsl, hrl⟩ : ∃ s1, s.runOp (Register (some p)) = Outcome.returns s1 ∧
      s1.mu = false ∧ s1.services.lookup p.val.Hostname = some p ∧
      s1.records.lookup p.addr = some
        { Header := { Name := { Data := p.val.Hostname }, Type_ := 1, Class := 0x8001,
                      TTL := 120, Length := 0 },
          Body := ResourceBody.AResource (bePutUint32 (ip.lo % 2 ^ 32)) } :=
    ⟨_, runOp_register_ok s p _ hmu hb, rfl, AList.lookup_insert _, AList.lookup_insert _⟩
  have hA : s1.collectAnswers
        [{ Name := { Data := p.val.Hostname }, Type_ := TypeA, Class := c }] =
      [{ Header := { Name := { Data := p.val.Hostname }, Type_ := 1, Class := 0x8001,
                     TTL := 120, Length := 0 },
         Body := ResourceBody.AResource (bePutUint32 (ip.lo % 2 ^ 32)) }] := by
    rw [collectAnswers_single,
      answer_of_lookup s1 { Name := { Data := p.val.Hostname }, Type_ := TypeA, Class := c }
        p _ hsl hrl]
    simp [TypeA]
  have hAAAA : s1.collectAnswers
        [{ Name := { Data := p.val.Hostname }, Type_ := TypeAAAA, Class := c }] = [] := by
    rw [collectAnswers_single,
      answer_of_lookup s1 { Name := { Data := p.val.Hostname }, Type_ := TypeAAAA, Class := c }
        p _ hsl hrl]
    simp [TypeAAAA]
  refine ⟨rfl, s1, _, hrun, hmu1, As4_of_Is4 ip h4, hA, hAAAA, ?_⟩
  intro hd src hr
  have hq := handleQuery_of_query s1 hd
    { Name := { Data := p.val.Hostname }, Type_ := TypeA, Class := c } [] src hr hmu1
  rw [hA] at hq
  simp only [List.length_singleton, gt_iff_lt, Nat.lt_one_iff, Nat.pos_of_ne_zero,
    Nat.zero_lt_one, if_true] at hq
  have hq6 := handleQuery_of_query s1 hd
    { Name := { Data := p.val.Hostname }, Type_ := TypeAAAA, Class := c } [] src hr hmu1
  rw [hAAAA] at hq6
  simp only [List.length_nil, gt_iff_lt, Nat.lt_irrefl, if_false] at hq6
  refine ⟨hq6, hq, ?_⟩
  intro hpack
  rw [hq]
  simp [Server.sendResponse, Message.Pack, packResources, hpack, replyHeader]

/-- The theorem of C4 at the new server and example.local. / 192.168.1.1:
handleQuery on the question (example.local., A) from 192.168.1.7:5353 writes
one response with the record of 192.168.1.1 to that querier. -/
theorem register_then_query_witness :
    ∃ s1, NewServer.runOp (Register (some exampleService)) = Outcome.returns s1 ∧
      s1.handleQuery
          { header := Except.ok { ID := 7, Response := false, Authoritative := false },
            questions := Except.ok
              [{ Name := { Data := "example.local." }, Type_ := TypeA, Class := 1 }] }
          { IP := [192, 168, 1, 7], Port := 5353 } =
        Outcome.returns
          { s1 with conn :=
              [{ msg := { Header := { ID := 0, Response := true, Authoritative := true },
                          Answers :=
                            [{ Header := { Name := { Data := "example.local." }, Type_ := 1,
                                           Class := 0x8001, TTL := 120, Length := 0 },
                               Body := ResourceBody.AResource [192, 168, 1, 1] }] },
                 dst := { IP := [192, 168, 1, 7], Port := 5353 } }] } := by
  obtain ⟨s1, a4, h1, -, h2, -, -, h3⟩ :=
    (register_then_query NewServer exampleService { Data := "example.local." }
      (AddrFrom4 192 168 1 1) 1 rfl (by decide) rfl (by decide)).2
  have h4 : (AddrFrom4 192 168 1 1).As4 = some [192, 168, 1, 1] := by decide
  rw [h4] at h2
  cases h2
  have h5 := (h3 { ID := 7, Response := false, Authoritative := false }
    { IP := [192, 168, 1, 7], Port := 5353 } rfl).2.2 (by decide)
  refine ⟨s1, h1, ?_⟩
  rw [h5]
  cases h1
  rfl

/-- C5: after an unregister turn for the hostname h, whatever its address
argument, no question about h collects an answer, in any packet, and
handleQuery on a packet of such questions returns without writing to the
socket. -/
theorem unregister_then_query (s : Server) (a : Nat) (h : String) (ipArg : Option Addr)
    (hmu : s.mu = false) (hinv : s.Inv) :
    ∃ s1, s.runOp (Unregister a h ipArg) = Outcome.returns s1 ∧
      (∀ q : Question, q.Name.String = h → s1.collectAnswers [q] = []) ∧
      (∀ qs : List Question, (∀ q ∈ qs, q.Name.String = h) → s1.collectAnswers qs = []) ∧
      (∀ (header : Except DnsError Header) (qs : List Question) (src : UDPAddr),
        (∀ q ∈ qs, q.Name.String = h) →
        s1.handleQuery { header := header, questions := Except.ok qs } src =
          Outcome.returns s1) := by
  have key : ∃ s1, s.runOp (Unregister a h ipArg) = Outcome.returns s1 ∧ s1.mu = false ∧
      s1.services.lookup h = none := by
    cases hs : s.services.lookup h with
    | none => exact ⟨s, runOp_unregister_absent s a h ipArg hmu hs, hmu, hs⟩
    | some p =>
      have hmem : (⟨h, p⟩ : Sigma fun _ : String => ServicePtr) ∈ s.services.entries :=
        AList.mem_lookup_iff.1 (by rw [hs]; exact rfl)
      have hnp := (hinv _ hmem).2
      rcases sendGoodbye_cases { s with mu := true } p with hp | ⟨conn, hc⟩
      · exfalso
        unfold Server.sendGoodbye at hp
        revert hp
        cases hb : buildServiceRecord (some p) 0 with
        | panics => exact fun _ => hnp hb
        | error e => simp
        | ok r =>
          simp only
          split <;> simp
      · exact ⟨_, runOp_unregister_present s _ a h ipArg p hmu hs hc, rfl,
          AList.lookup_erase _ _⟩
  obtain ⟨s1, hrun, hmu1, hnone⟩ := key
  have hall : ∀ qs : List Question, (∀ q ∈ qs, q.Name.String = h) →
      s1.collectAnswers qs = [] := by
    intro qs hqs
    rw [collectAnswers_eq_flatMap]
    simp only [List.flatMap_eq_nil_iff]
    intro q hq
    rw [answer_of_unregistered s1 q (by rw [hqs q hq]; exact hnone)]
    rfl
  refine ⟨s1, hrun, ?_, hall, ?_⟩
  · intro q hq
    exact hall [q] (by simpa using hq)
  · intro header qs src hqs
    unfold Server.handleQuery
    cases header with
    | error e => rfl
    | ok hd =>
      simp only
      split
      · rfl
      · split
        · rfl
        · simp [hmu1, hall qs hqs]

/-- The theorem of C5 at the server that holds example.local.: after the
unregister turn the question (example.local., A) collects nothing. -/
theorem unregister_then_query_witness :
    ∃ s1, exampleServer.runOp (Unregister 9 "example.local." none) = Outcome.returns s1 ∧
      s1.collectAnswers [{ Name := { Data := "example.local." }, Type_ := TypeA, Class := 1 }]
        = [] := by
  obtain ⟨s1, h1, h2, -⟩ := unregister_then_query exampleServer 9 "example.local." none rfl
    (by decide)
  exact ⟨s1, h1, h2 _ rfl⟩

/-- C10, as the code runs: a register turn whose build returns an error ends
with the mutex still held, so every later turn of run, every query that
reaches the lock and Shutdown block for ever. -/
theorem runOp_register_failed_build_keeps_mutex (s : Server) (p : ServicePtr)
    (e : BuildError) (hmu : s.mu = false)
    (hb : buildServiceRecord (some p) defaultTTL = BuildResult.error e) :
    ∃ s1, s.runOp (Register (some p)) = Outcome.returns s1 ∧ s1.mu = true ∧
      (∀ o : operation, s1.runOp o = Outcome.blocked) ∧
      (∀ (hd : Header) (q : Question) (qs : List Question) (src : UDPAddr),
        hd.Response = false →
        s1.handleQuery { header := Except.ok hd, questions := Except.ok (q :: qs) } src =
          Outcome.blocked) ∧
      s1.Shutdown = Outcome.blocked := by
  refine ⟨_, runOp_register_error s p e hmu hb, rfl, ?_, ?_, ?_⟩
  · intro o
    simp [Server.runOp]
  · intro hd q qs src hr
    simp [Server.handleQuery, hr]
  · simp [Server.Shutdown]

/-- The theorem of C10 at the new server and a service with the zero address:
the unregister turn that follows the failed register blocks. -/
theorem runOp_register_failed_build_keeps_mutex_witness :
    ∃ s1, NewServer.runOp (Register (some zeroAddrService)) = Outcome.returns s1 ∧
      s1.mu = true ∧ s1.runOp (Unregister 9 "example.local." none) = Outcome.blocked := by
  obtain ⟨s1, h1, h2, h3, -⟩ := runOp_register_failed_build_keeps_mutex NewServer
    zeroAddrService (BuildError.unsupportedIPVersion { hi := 0, lo := 0, z := Zone.z0 })
    rfl (by decide)
  exact ⟨s1, h1, h2, h3 _⟩

/-- C8, as the code runs: after two register turns for the same hostname with
two services, both builds succeeding, the record map still holds the record of
the first service, which is no longer a value of the hostname map. -/
theorem run_reregister_keeps_stale_record :
    ∃ r1 r2 s1,
      buildServiceRecord (some exampleService) defaultTTL = BuildResult.ok r1 ∧
      buildServiceRecord (some exampleService2) defaultTTL = BuildResult.ok r2 ∧
      NewServer.run [Register (some exampleService), Register (some exampleService2)] =
        Outcome.returns s1 ∧
      s1.records.lookup exampleService.addr = some r1 ∧
      exampleService ∉ s1.services.entries.map (fun e => e.2) ∧
      exampleService.addr ∉ s1.services.entries.map (fun e => e.2.addr) ∧
      s1.services.entries.length = 1 ∧ s1.records.entries.length = 2 := by
  refine ⟨_, _, _, rfl, rfl, rfl, ?_, ?_, ?_, ?_, ?_⟩ <;> decide

/-- C6, as stated, fails: the run that registers the hostname example.local
(no trailing dot) reaches a state where that hostname is registered, and the
unregister turn for it writes nothing to the socket, because Pack rejects
the name of the goodbye record. -/
theorem unregister_dotless_sends_nothing :
    ∃ s s1, NewServer.run [Register (some dotlessService)] = Outcome.returns s ∧
      s.services.lookup "example.local" = some dotlessService ∧
      s.runOp (Unregister 9 "example.local" none) = Outcome.returns s1 ∧
      s1.conn = [] := by
  refine ⟨_, _, rfl, ?_, rfl, ?_⟩ <;> decide

/-- C6, amended: when the service registered under h has an IPv4 or IPv6
address and a hostname that Name.pack accepts, the unregister turn for h,
whatever its address argument, writes exactly one datagram to the multicast
destination: response and authoritative flags, one answer of TTL 0 named h
carrying the address of the registered service; both maps lose the service.
When h is not registered the turn leaves the whole state as it was. -/
theorem unregister_sends_one_goodbye (s : Server) (a : Nat) (h : String)
    (ipArg : Option Addr) (hmu : s.mu = false) (hinv : s.Inv) :
    (∀ p ip, s.services.lookup h = some p → p.val.IP = some ip →
      (ip.Is4 = true ∨ ip.Is6 = true) → (Name.mk h).pack = Except.ok () →
      ∃ s1 r, s.runOp (Unregister a h ipArg) = Outcome.returns s1 ∧
        s1.conn = s.conn ++
          [{ msg := { Header := { ID := 0, Response := true, Authoritative := true },
                      Answers := [r] },
             dst := s.destAddr }] ∧
        r.Header.TTL = 0 ∧ r.Header.Name.String = h ∧
        (ip.Is4 = true → ∃ a4, ip.As4 = some a4 ∧ r.Header.Type_ = 1 ∧
          r.Body = ResourceBody.AResource a4) ∧
        (ip.Is6 = true → r.Header.Type_ = 28 ∧ r.Body = ResourceBody.AAAAResource ip.As16) ∧
        s1.services = s.services.erase h ∧ s1.records = s.records.erase p.addr ∧
        s1.mu = false) ∧
    (s.services.lookup h = none → s.runOp (Unregister a h ipArg) = Outcome.returns s) := by
  refine ⟨?_, runOp_unregister_absent s a h ipArg hmu⟩
  intro p ip hs hip h46 hpack
  have hmem : (⟨h, p⟩ : Sigma fun _ : String => ServicePtr) ∈ s.services.entries :=
    AList.mem_lookup_iff.1 (by rw [hs]; exact rfl)
  have hname : p.val.Hostname = h := (hinv _ hmem).1
  have hann : Announceable p := ⟨⟨ip, hip, h46⟩, by rw [hname]; exact hpack⟩
  obtain ⟨d, ⟨hdst, hresp, hauth, r, ip1, hans, httl, hrn, hip1, hr4, hr6⟩, hsend⟩ :=
    sendGoodbye_announceable { s with mu := true } p hann
  have hipe : ip1 = ip := by
    rw [hip] at hip1
    cases hip1
    rfl
  subst hipe
  refine ⟨_, r, runOp_unregister_present s _ a h ipArg p hmu hs hsend, ?_, httl,
    by rw [hrn, hname], hr4, hr6, rfl, rfl, rfl⟩
  have hd : d = { msg := { Header := { ID := 0, Response := true, Authoritative := true },
                           Answers := [r] }, dst := s.destAddr } := by
    unfold Server.sendGoodbye at hsend
    revert hsend
    cases buildServiceRecord (some p) 0 with
    | panics => simp
    | error e =>
      intro hsend
      have := congrArg (fun o => match o with
        | Outcome.returns t => t.conn.length
        | _ => 0) hsend
      simp at this
    | ok r0 =>
      simp only
      split
      · intro hsend
        have := congrArg (fun o => match o with
          | Outcome.returns t => t.conn.length
          | _ => 0) hsend
        simp at this
      · intro hsend
        have hc := congrArg (fun o => match o with
          | Outcome.returns t => t.conn
          | _ => []) hsend
        simp only [List.append_cancel_left_eq, List.cons.injEq, and_true] at hc
        rw [← hc] at hans
        simp only [List.cons.injEq, and_true] at hans
        rw [← hc, hans]
        rfl
  simp only [hd]

/-- The theorem of C6 at the server that holds example.local. / 192.168.1.1:
one goodbye of TTL 0 with the bytes 192, 168, 1, 1 is written. -/
theorem unregister_sends_one_goodbye_witness :
    ∃ s1 r, exampleServer.runOp (Unregister 9 "example.local." none) = Outcome.returns s1 ∧
      s1.conn = [{ msg := { Header := { ID := 0, Response := true, Authoritative := true },
                            Answers := [r] },
                   dst := { IP := [224, 0, 0, 251], Port := 5353 } }] ∧
      r.Header.TTL = 0 ∧ r.Header.Name.String = "example.local." ∧
      r.Body = ResourceBody.AResource [192, 168, 1, 1] := by
  obtain ⟨s1, r, h1, h2, h3, h4, h5, -⟩ :=
    (unregister_sends_one_goodbye exampleServer 9 "example.local." none rfl (by decide)).1
      exampleService (AddrFrom4 192 168 1 1) (by decide) rfl (by decide) (by decide)
  obtain ⟨a4, h6, -, h7⟩ := h5 (by decide)
  have h8 : (AddrFrom4 192 168 1 1).As4 = some [192, 168, 1, 1] := by decide
  rw [h8] at h6
  cases h6
  exact ⟨s1, r, h1, h2, h3, h4, h7⟩

/-- C9, as stated, fails: the server reached by registering the dotless hostname
of dotlessService holds one service, and the sweep of Shutdown writes nothing
to the socket. -/
theorem Shutdown_dotless_sends_nothing :
    NewServer.run [Register (some dotlessService)] = Outcome.returns dotlessServer ∧
    dotlessServer.services.entries.length = 1 ∧
    ∃ s1, dotlessServer.Shutdown = Outcome.returns s1 ∧ s1.conn = [] :=
  ⟨rfl, rfl, _, rfl, rfl⟩

/-- C9, amended: in a state with no service whose build panics on a nil
address, Shutdown writes exactly one goodbye per service that has an IPv4 or
IPv6 address and a hostname that Name.pack accepts, in the order of the visit,
each to the multicast destination with response and authoritative flags and
one answer of TTL 0 that carries the hostname and the address bytes of that
service; every other service is skipped without a datagram.  When all N
services qualify, exactly N datagrams are written, one per service. -/
theorem Shutdown_sends_goodbyes (s : Server) (hmu : s.mu = false)
    (hnp : ∀ e ∈ s.services.entries,
      buildServiceRecord (some e.2) 0 ≠ BuildResult.panics) :
    ∃ s1 sent, s.Shutdown = Outcome.returns s1 ∧ s1.conn = s.conn ++ sent ∧
      s1.services = s.services ∧ s1.records = s.records ∧
      sent.length = (s.services.entries.filter (fun e => canAnnounce e.2)).length ∧
      List.Forall₂
        (fun e d =>
          d.dst = s.destAddr ∧ d.msg.Header.Response = true ∧
          d.msg.Header.Authoritative = true ∧
          ∃ r ip, d.msg.Answers = [r] ∧ r.Header.TTL = 0 ∧
            r.Header.Name.String = e.2.val.Hostname ∧ e.2.val.IP = some ip ∧
            (ip.Is4 = true → ∃ a4, ip.As4 = some a4 ∧ r.Header.Type_ = 1 ∧
              r.Body = ResourceBody.AResource a4) ∧
            (ip.Is6 = true → r.Header.Type_ = 28 ∧
              r.Body = ResourceBody.AAAAResource ip.As16))
        (s.services.entries.filter (fun e => canAnnounce e.2)) sent ∧
      (∀ e ∈ s.services.entries,
        (canAnnounce e.2 = true ↔
          (∃ ip, e.2.val.IP = some ip ∧ (ip.Is4 = true ∨ ip.Is6 = true)) ∧
          (Name.mk e.2.val.Hostname).pack = Except.ok ())) ∧
      ((∀ e ∈ s.services.entries,
          (∃ ip, e.2.val.IP = some ip ∧ (ip.Is4 = true ∨ ip.Is6 = true)) ∧
          (Name.mk e.2.val.Hostname).pack = Except.ok ()) →
        sent.length = s.services.entries.length ∧
        s.services.entries.filter (fun e => canAnnounce e.2) = s.services.entries) := by
  obtain ⟨sent, hsent, hsweep⟩ :=
    sweep_filter (s.services.entries.map (fun e => e.2)) { s with mu := true }
      (by
        intro p hp
        obtain ⟨e, he, rfl⟩ := List.mem_map.1 hp
        exact hnp e he)
  have hfm : (s.services.entries.map (fun e => e.2)).filter canAnnounce =
      (s.services.entries.filter (fun e => canAnnounce e.2)).map (fun e => e.2) := by
    rw [List.filter_map]
    rfl
  rw [hfm] at hsent
  have hlen : sent.length = (s.services.entries.filter (fun e => canAnnounce e.2)).length := by
    have := hsent.length_eq
    simpa using this.symm
  refine ⟨{ s with conn := s.conn ++ sent, shutdown := s.shutdown + 1 }, sent, ?_, rfl, rfl,
    rfl, hlen, List.forall₂_map_left_iff.1 hsent, ?_, ?_⟩
  · simp only [Server.Shutdown, hmu, hsweep]
    cases s
    simp_all
  · intro e _
    exact canAnnounce_iff e.2
  · intro hall
    have hf : s.services.entries.filter (fun e => canAnnounce e.2) = s.services.entries := by
      rw [List.filter_eq_self]
      intro e he
      exact (canAnnounce_iff e.2).2 (hall e he)
    rw [hf] at hlen
    exact ⟨hlen, hf⟩

/-- The theorem of C9 at the server that holds example.local. / 192.168.1.1 and
the dotless example.local: two services, one goodbye, that of example.local. -/
theorem Shutdown_sends_goodbyes_witness :
    NewServer.run [Register (some exampleService), Register (some dotlessService)] =
      Outcome.returns mixedServer ∧
    mixedServer.services.entries.length = 2 ∧
    ∃ s1 d, mixedServer.Shutdown = Outcome.returns s1 ∧ s1.conn = [d] ∧
      d.dst = { IP := [224, 0, 0, 251], Port := 5353 } ∧
      ∃ r, d.msg.Answers = [r] ∧ r.Header.TTL = 0 ∧
        r.Header.Name.String = "example.local." := by
  refine ⟨rfl, rfl, ?_⟩
  obtain ⟨s1, sent, h1, h2, -, -, -, h4, -⟩ :=
    Shutdown_sends_goodbyes mixedServer rfl (by decide)
  have hent : mixedServer.services.entries.filter (fun e => canAnnounce e.2) =
      [⟨"example.local.", exampleService⟩] := by decide
  rw [hent] at h4
  cases h4 with
  | cons hd htl =>
    cases htl
    obtain ⟨hdst, -, -, r, ip, hr, httl, hn, -⟩ := hd
    exact ⟨s1, _, h1, h2, hdst, r, hr, httl, hn⟩

/-- C7: after two register turns for the same accepted hostname h with two
addresses that differ (apart from an IPv6 zone, which no record carries), the
hostname map holds the second service and its record is the one live record
of h: a question about h collects nothing or exactly that record, every
answer collected for questions about h is that record, which carries the
second address, and never the record of the first address. -/
theorem reregister_replaces (s : Server) (p1 p2 : ServicePtr) (ip1 ip2 : Addr)
    (h : String) (host : Name) (hmu : s.mu = false)
    (hh1 : p1.val.Hostname = h) (hh2 : p2.val.Hostname = h)
    (hname : NewName h = Except.ok host)
    (hip1 : p1.val.IP = some ip1) (hip2 : p2.val.IP = some ip2)
    (hv1 : ip1.Is4 = true ∨ ip1.Is6 = true) (hv2 : ip2.Is4 = true ∨ ip2.Is6 = true)
    (hwf1 : ip1.WF) (hwf2 : ip2.WF) (hne : ip1.withoutZone ≠ ip2.withoutZone) :
    ∃ s2 r1 r2,
      s.run [Register (some p1), Register (some p2)] = Outcome.returns s2 ∧
      buildServiceRecord (some p1) defaultTTL = BuildResult.ok r1 ∧
      buildServiceRecord (some p2) defaultTTL = BuildResult.ok r2 ∧
      s2.services.lookup h = some p2 ∧ s2.records.lookup p2.addr = some r2 ∧
      (ip2.Is4 = true → ∃ a4, ip2.As4 = some a4 ∧ r2.Body = ResourceBody.AResource a4) ∧
      (ip2.Is6 = true → r2.Body = ResourceBody.AAAAResource ip2.As16) ∧
      r1.Body ≠ r2.Body ∧
      (∀ q : Question, q.Name.String = h →
        s2.collectAnswers [q] = [] ∨ s2.collectAnswers [q] = [r2]) ∧
      (∀ qs : List Question, (∀ q ∈ qs, q.Name.String = h) →
        ∀ a ∈ s2.collectAnswers qs, a = r2 ∧ a ≠ r1) := by
  obtain ⟨hlen, -⟩ := (NewName_ok_iff _ _).1 hname
  have hlen1 : p1.val.Hostname.utf8ByteSize ≤ 255 := by rw [hh1]; exact hlen
  have hlen2 : p2.val.Hostname.utf8ByteSize ≤ 255 := by rw [hh2]; exact hlen
  have hb1 : ∃ r1, buildServiceRecord (some p1) defaultTTL = BuildResult.ok r1 := by
    rcases hv1 with h4 | h6
    · exact ⟨_, build_of_Is4 p1 ip1 _ hlen1 hip1 h4⟩
    · exact ⟨_, build_of_Is6 p1 ip1 _ hlen1 hip1 h6⟩
  have hb2 : ∃ r2, buildServiceRecord (some p2) defaultTTL = BuildResult.ok r2 ∧
      (ip2.Is4 = true → ∃ a4, ip2.As4 = some a4 ∧ r2.Body = ResourceBody.AResource a4) ∧
      (ip2.Is6 = true → r2.Body = ResourceBody.AAAAResource ip2.As16) := by
    rcases hv2 with h4 | h6
    · refine ⟨_, build_of_Is4 p2 ip2 _ hlen2 hip2 h4, fun _ => ⟨_, As4_of_Is4 ip2 h4, rfl⟩, ?_⟩
      intro h6
      rw [Is6_not_Is4 ip2 h6] at h4
      cases h4
    · refine ⟨_, build_of_Is6 p2 ip2 _ hlen2 hip2 h6, ?_, fun _ => rfl⟩
      intro h4
      rw [Is6_not_Is4 ip2 h6] at h4
      cases h4
  obtain ⟨r1, hr1⟩ := hb1
  obtain ⟨r2, hr2, hbody4, hbody6⟩ := hb2
  have hbne : r1.Body ≠ r2.Body :=
    build_body_ne p1 p2 ip1 ip2 r1 r2 _ hip1 hip2 hlen1 hlen2 hv1 hv2 hwf1 hwf2 hne hr1 hr2
  have hrne : r2 ≠ r1 := fun e => hbne (by rw [e])
  have hstep1 := runOp_register_ok s p1 r1 hmu hr1
  have hstep2 := runOp_register_ok
    { s with services := s.services.insert p1.val.Hostname p1,
             records := s.records.insert p1.addr r1, mu := false } p2 r2 rfl hr2
  have hs : ∀ q : Question, q.Name.String = h →
      AList.lookup q.Name.String
        ((s.services.insert p1.val.Hostname p1).insert p2.val.Hostname p2) = some p2 := by
    intro q hq
    rw [hq, hh2]
    exact AList.lookup_insert _
  have hans : ∀ q : Question, q.Name.String = h →
      ∀ a ∈ (({ s with services := (s.services.insert p1.val.Hostname p1).insert
                          p2.val.Hostname p2,
                       records := (s.records.insert p1.addr r1).insert p2.addr r2,
                       mu := false } : Server).answer q).toList, a = r2 := by
    intro q hq a ha
    rw [answer_of_lookup _ q p2 r2 (hs q hq) (AList.lookup_insert _)] at ha
    split at ha
    · simpa using ha
    · simp at ha
  refine ⟨{ s with services := (s.services.insert p1.val.Hostname p1).insert
                      p2.val.Hostname p2,
                    records := (s.records.insert p1.addr r1).insert p2.addr r2,
                    mu := false }, r1, r2, ?_, hr1, hr2, ?_, AList.lookup_insert _, hbody4,
    hbody6, hbne, ?_, ?_⟩
  · simp only [Server.run, hstep1, hstep2]
  · rw [← hh2]
    exact AList.lookup_insert _
  · intro q hq
    rw [collectAnswers_single, answer_of_lookup _ q p2 r2 (hs q hq) (AList.lookup_insert _)]
    split
    · exact Or.inr rfl
    · exact Or.inl rfl
  · intro qs hqs a ha
    rw [collectAnswers_eq_flatMap] at ha
    obtain ⟨q, hq, haq⟩ := List.mem_flatMap.1 ha
    have := hans q (hqs q hq) a haq
    exact ⟨this, by rw [this]; exact hrne⟩

/-- The theorem of C7 at the new server, example.local. registered at
192.168.1.1 and then at 192.168.1.2: the question (example.local., A) collects
the record of 192.168.1.2 only. -/
theorem reregister_replaces_witness :
    ∃ s2, NewServer.run [Register (some exampleService), Register (some exampleService2)] =
        Outcome.returns s2 ∧
      s2.collectAnswers [{ Name := { Data := "example.local." }, Type_ := TypeA, Class := 1 }] =
        [{ Header := { Name := { Data := "example.local." }, Type_ := 1, Class := 0x8001,
                       TTL := 120, Length := 0 },
           Body := ResourceBody.AResource [192, 168, 1, 2] }] := by
  obtain ⟨s2, r1, r2, h1, -, h3, -, -, -, -, -, h4, -⟩ :=
    reregister_replaces NewServer exampleService exampleService2 (AddrFrom4 192 168 1 1)
      (AddrFrom4 192 168 1 2) "example.local." { Data := "example.local." } rfl rfl rfl
      (by decide) rfl rfl (by decide) (by decide) (by decide) (by decide) (by decide)
  refine ⟨s2, h1, ?_⟩
  have h5 : buildServiceRecord (some exampleService2) defaultTTL = BuildResult.ok
      { Header := { Name := { Data := "example.local." }, Type_ := 1, Class := 0x8001,
                    TTL := 120, Length := 0 },
        Body := ResourceBody.AResource [192, 168, 1, 2] } := by decide
  rw [h5] at h3
  cases h3
  rcases h4 { Name := { Data := "example.local." }, Type_ := TypeA, Class := 1 } rfl with h6 | h6
  · exfalso
    cases h1
    revert h6
    decide
  · exact h6

end Mdns
